import Mathlib

/-!
Verification of the password-generator core of `src/main.py`
(`build_charset` and `generate_password`).

Modelling conventions:
* Python strings become `List Char`; the fixed alphabets are copied verbatim
  from `string.ascii_lowercase`, `string.ascii_uppercase`, `string.digits`
  and the symbol literal in `build_charset`.
* The three `ValueError`s are told apart by the distinct error conditions the
  code checks, exactly as the spec names them (`InvalidLength`,
  `NoCategorySelected`, `AllPoolsEmptied`); fallible functions return
  `Except GenError`.
* Randomness (`secrets.choice`, `secrets.randbelow`) is modelled by an
  arbitrary stream `r : Nat → Nat`: the k-th random draw bounded by `m`
  yields `r k % m`.  All functional claims are proved for every stream.
* Python `int` is `Int`; `length.toNat` converts once positivity is known.
-/

/-- Error taxonomy of the core, matching the spec names for the three
`ValueError`s raised in `src/main.py`. -/
inductive GenError : Type where
  | NoCategorySelected : GenError
  | AllPoolsEmptied : GenError
  | InvalidLength : GenError
deriving DecidableEq

instance {ε α : Type} [DecidableEq ε] [DecidableEq α] : DecidableEq (Except ε α)
  | .error a, .error b =>
      if h : a = b then .isTrue (by rw [h]) else .isFalse (fun hh => h (by injection hh))
  | .error _, .ok _ => .isFalse (fun hh => Except.noConfusion hh)
  | .ok _, .error _ => .isFalse (fun hh => Except.noConfusion hh)
  | .ok a, .ok b =>
      if h : a = b then .isTrue (by rw [h]) else .isFalse (fun hh => h (by injection hh))

/-- Python `string.ascii_lowercase`. -/
def ascii_lowercase : List Char := "abcdefghijklmnopqrstuvwxyz".toList

/-- Python `string.ascii_uppercase`. -/
def ascii_uppercase : List Char := "ABCDEFGHIJKLMNOPQRSTUVWXYZ".toList

/-- Python `string.digits`. -/
def digits : List Char := "0123456789".toList

/-- The symbol literal appended in `build_charset` (line 35 of `src/main.py`). -/
def symbols : List Char := "!@#$%^&*()-_=+[]\x7b\x7d<>?/".toList

/-- The module-level constant `AMBIGUOUS = set("Il1O0`.\x27\x22.,;:")` of
`src/main.py` (line 23); character codes 96, 39, 34 are the backtick, the
single quote and the double quote.  Only membership in the set is ever used,
so a list models it faithfully. -/
def AMBIGUOUS : List Char :=
  "Il1O0".toList ++ [Char.ofNat 96, Char.ofNat 39, Char.ofNat 34] ++ ".,;:".toList

/-- The `parts` list of `build_charset` right after the four flag-guarded
appends (lines 26-35 of `src/main.py`): one alphabet per enabled category, in
declaration order lower, upper, digits, symbols. -/
def selected_parts (use_lower use_upper use_digits use_symbols : Bool) : List (List Char) :=
  (if use_lower then [ascii_lowercase] else []) ++
  (if use_upper then [ascii_uppercase] else []) ++
  (if use_digits then [digits] else []) ++
  (if use_symbols then [symbols] else [])

/-- The `parts` list after the optional ambiguous-character exclusion
(lines 38-39 of `src/main.py`): a character survives iff it is not in
`AMBIGUOUS`, and relative order is preserved by the comprehension. -/
def excluded_parts (use_lower use_upper use_digits use_symbols exclude_ambiguous : Bool) :
    List (List Char) :=
  if exclude_ambiguous then
    (selected_parts use_lower use_upper use_digits use_symbols).map
      (fun s => s.filter (fun ch => !AMBIGUOUS.contains ch))
  else selected_parts use_lower use_upper use_digits use_symbols

/-- `build_charset` of `src/main.py` (lines 25-44): build the per-category
pools, fail with `NoCategorySelected` when no flag is set, optionally strip
ambiguous characters, drop pools that became empty, fail with
`AllPoolsEmptied` when none survive, otherwise return the surviving pools. -/
def build_charset (use_lower use_upper use_digits use_symbols exclude_ambiguous : Bool) :
    Except GenError (List (List Char)) :=
  if (selected_parts use_lower use_upper use_digits use_symbols).isEmpty then
    .error .NoCategorySelected
  else if ((excluded_parts use_lower use_upper use_digits use_symbols exclude_ambiguous).filter
      (fun p => !p.isEmpty)).isEmpty then
    .error .AllPoolsEmptied
  else
    .ok ((excluded_parts use_lower use_upper use_digits use_symbols exclude_ambiguous).filter
      (fun p => !p.isEmpty))

/-- `secrets.choice(p)` fed with the raw random value `n`: the element at
index `n % p.length`.  The default is irrelevant: every use has a non-empty
pool. -/
def choiceD (p : List Char) (n : Nat) : Char := p.getD (n % p.length) 'a'

/-- The draws of the insufficient-length branch (line 65 of `src/main.py`):
`length` independent choices from the flattened pool, the k-th consuming the
k-th random value. -/
def case_a_draws (pool : List Char) (n : Nat) (r : Nat → Nat) : List Char :=
  (List.range n).map (fun k => choiceD pool (r k))

/-- The coverage draws (line 68 of `src/main.py`): one choice from each pool
in order, the k-th pool consuming the k-th random value. -/
def coverage_draws (parts : List (List Char)) (r : Nat → Nat) : List Char :=
  (List.range parts.length).map (fun k => choiceD (parts.getD k []) (r k))

/-- The filler draws (line 72 of `src/main.py`): `n - m` further choices from
the flattened pool, consuming random values from index `m` on. -/
def case_b_filler (pool : List Char) (m n : Nat) (r : Nat → Nat) : List Char :=
  (List.range (n - m)).map (fun k => choiceD pool (r (m + k)))

/-- One Fisher-Yates exchange: the list with positions `i` and `j` swapped
(both in range at every call site). -/
def swapD (l : List Char) (i j : Nat) : List Char :=
  (l.set i (l.getD j 'a')).set j (l.getD i 'a')

/-- The Fisher-Yates loop of lines 76-78 of `src/main.py`, running the swap
for indices `i, i-1, ..., 1`; the draw for index `i` is `r i % (i+1)`,
modelling `secrets.randbelow(i+1)`. -/
def fisherYatesAux (r : Nat → Nat) : List Char → Nat → List Char
  | l, 0 => l
  | l, i+1 => fisherYatesAux r (swapD l (i+1) (r (i+1) % (i+2))) i

/-- The full in-place shuffle of `password_chars` (lines 76-78 of
`src/main.py`). -/
def fisherYates (l : List Char) (r : Nat → Nat) : List Char :=
  fisherYatesAux r l (l.length - 1)

/-- `generate_password` of `src/main.py` (lines 46-80).  Draw indices: the
character draws consume the stream positions `0, ..., length-1` (first the
per-pool coverage draws, then the filler), the shuffle consumes positions
`length, length+1, ...`. -/
def generate_password (length : Int) (use_lower use_upper use_digits use_symbols
    exclude_ambiguous : Bool) (r : Nat → Nat) : Except GenError (List Char) :=
  if length ≤ 0 then .error .InvalidLength
  else
    match build_charset use_lower use_upper use_digits use_symbols exclude_ambiguous with
    | .error e => .error e
    | .ok parts =>
      if length.toNat < parts.length then
        .ok (case_a_draws parts.flatten length.toNat r)
      else
        .ok (fisherYates
          (coverage_draws parts r ++ case_b_filler parts.flatten parts.length length.toNat r)
          (fun i => r (length.toNat + i)))

/-- The category reference alphabets in declaration order (spec section 3 and
section 4.1): lower, upper, digits, symbols. -/
def categories : List (List Char) := [ascii_lowercase, ascii_uppercase, digits, symbols]

/-- The Charset Builder exactly as the spec words it (section 4.1), written
from the SPEC for the refinement claim C9 (the code-side definition is
`build_charset` above): keep the categories whose flag is true, in
declaration order; when `excludeAmbiguous` holds remove every ambiguous
character from every pool, preserving relative order; drop pools that became
empty; fail with `NoCategorySelected` when no flag is set and with
`AllPoolsEmptied` when exclusion emptied every pool. -/
def build_charset_spec (use_lower use_upper use_digits use_symbols excludeAmbiguous : Bool) :
    Except GenError (List (List Char)) :=
  let enabled := (([use_lower, use_upper, use_digits, use_symbols].zip categories).filter
    (fun q => q.1)).map (fun q => q.2)
  if enabled.isEmpty then .error .NoCategorySelected
  else
    let pools := if excludeAmbiguous then
        enabled.map (fun p => p.filter (fun ch => !AMBIGUOUS.contains ch))
      else enabled
    let surviving := pools.filter (fun p => !p.isEmpty)
    if surviving.isEmpty then .error .AllPoolsEmptied
    else .ok surviving

/-! ### Permutation facts about the shuffle -/

/-- Moving the element at index `k` to the front while writing `a` into its
slot permutes `a :: t`. -/
theorem cons_set_perm (a d : Char) :
    ∀ (t : List Char) (k : Nat), k < t.length →
      List.Perm (t.getD k d :: t.set k a) (a :: t) := by
  intro t
  induction t with
  | nil => intro k hk; simp at hk
  | cons b t ih =>
    intro k hk
    match k with
    | 0 =>
      simp only [List.getD_cons_zero, List.set_cons_zero]
      exact List.Perm.swap a b t
    | m+1 =>
      simp only [List.getD_cons_succ, List.set_cons_succ]
      have h1 : List.Perm (t.getD m d :: b :: t.set m a) (b :: t.getD m d :: t.set m a) :=
        List.Perm.swap b (t.getD m d) (t.set m a)
      have h2 : List.Perm (b :: t.getD m d :: t.set m a) (b :: a :: t) :=
        (ih m (Nat.lt_of_succ_lt_succ hk)).cons b
      have h3 : List.Perm (b :: a :: t) (a :: b :: t) := List.Perm.swap a b t
      exact (h1.trans h2).trans h3

/-- Exchanging two in-range positions permutes the list. -/
theorem swapD_perm :
    ∀ (l : List Char) (i j : Nat), i < l.length → j < l.length →
      List.Perm (swapD l i j) l := by
  intro l
  induction l with
  | nil => intro i j hi _; simp at hi
  | cons a t ih =>
    intro i j hi hj
    match i, j with
    | 0, 0 =>
      simp only [swapD, List.getD_cons_zero, List.set_cons_zero]
      exact List.Perm.refl _
    | 0, k+1 =>
      simp only [swapD, List.getD_cons_zero, List.getD_cons_succ,
        List.set_cons_zero, List.set_cons_succ]
      exact cons_set_perm a 'a' t k (Nat.lt_of_succ_lt_succ hj)
    | m+1, 0 =>
      simp only [swapD, List.getD_cons_zero, List.getD_cons_succ,
        List.set_cons_zero, List.set_cons_succ]
      exact cons_set_perm a 'a' t m (Nat.lt_of_succ_lt_succ hi)
    | m+1, k+1 =>
      simp only [swapD, List.getD_cons_succ, List.set_cons_succ]
      exact (ih m k (Nat.lt_of_succ_lt_succ hi) (Nat.lt_of_succ_lt_succ hj)).cons a

/-- Every pass of the Fisher-Yates loop permutes its input, as long as the
loop index stays within the list. -/
theorem fisherYatesAux_perm (r : Nat → Nat) :
    ∀ (i : Nat) (l : List Char), i < l.length →
      List.Perm (fisherYatesAux r l i) l := by
  intro i
  induction i with
  | zero => intro l _; exact List.Perm.refl l
  | succ i ih =>
    intro l hl
    have hj : r (i+1) % (i+2) < l.length :=
      Nat.lt_of_le_of_lt (Nat.le_of_lt_succ (Nat.mod_lt _ (Nat.succ_pos _))) hl
    have hswap := swapD_perm l (i+1) (r (i+1) % (i+2)) hl hj
    have hlen : (swapD l (i+1) (r (i+1) % (i+2))).length = l.length := hswap.length_eq
    have hrec := ih (swapD l (i+1) (r (i+1) % (i+2))) (by omega)
    exact hrec.trans hswap

/-- The modelled shuffle of `src/main.py` is a permutation of its input. -/
theorem fisherYates_perm (l : List Char) (r : Nat → Nat) :
    List.Perm (fisherYates l r) l := by
  cases l with
  | nil => exact List.Perm.refl _
  | cons a t =>
    exact fisherYatesAux_perm r (a :: t).length.pred (a :: t) (by simp)

/-! ### Basic facts about the draws and the charset builder -/

/-- A modelled `secrets.choice` from a non-empty pool lands in the pool. -/
theorem choiceD_mem (p : List Char) (n : Nat) (hp : p ≠ []) : choiceD p n ∈ p := by
  have hlp : 0 < p.length := List.length_pos.mpr hp
  have hlt : n % p.length < p.length := Nat.mod_lt _ hlp
  unfold choiceD
  rw [List.getD_eq_getElem p 'a' hlt]
  exact List.getElem_mem hlt

/-- Shape of a successful `build_charset`: the returned pools are exactly the
non-empty pools left after the optional exclusion. -/
theorem build_charset_ok_shape (a b c d e : Bool) (parts : List (List Char))
    (h : build_charset a b c d e = .ok parts) :
    parts = (excluded_parts a b c d e).filter (fun p => !p.isEmpty) := by
  unfold build_charset at h
  split at h
  · exact absurd h (by simp)
  · split at h
    · exact absurd h (by simp)
    · injection h with h; exact h.symm

/-- A successful `build_charset` never returns an empty pool. -/
theorem build_charset_pools_ne_nil (a b c d e : Bool) (parts : List (List Char))
    (h : build_charset a b c d e = .ok parts) :
    ∀ p ∈ parts, p ≠ [] := by
  intro p hp
  rw [build_charset_ok_shape a b c d e parts h] at hp
  have := List.of_mem_filter hp
  simpa [List.isEmpty_iff] using this

/-- A successful `build_charset` returns a non-empty list of pools. -/
theorem build_charset_parts_ne_nil (a b c d e : Bool) (parts : List (List Char))
    (h : build_charset a b c d e = .ok parts) : parts ≠ [] := by
  unfold build_charset at h
  split at h
  · exact absurd h (by simp)
  · split at h
    · exact absurd h (by simp)
    · injection h with h
      intro hnil
      rename_i hne
      rw [h, hnil] at hne
      simp at hne

/-- The flattened pool of a successful `build_charset` is non-empty. -/
theorem build_charset_flatten_ne_nil (a b c d e : Bool) (parts : List (List Char))
    (h : build_charset a b c d e = .ok parts) : parts.flatten ≠ [] := by
  have hne := build_charset_parts_ne_nil a b c d e parts h
  obtain ⟨p, ps, rfl⟩ := List.exists_cons_of_ne_nil hne
  have hp : p ≠ [] := build_charset_pools_ne_nil a b c d e _ h p (by simp)
  obtain ⟨x, xs, rfl⟩ := List.exists_cons_of_ne_nil hp
  simp

/-- With ambiguous exclusion on, every character of every returned pool
avoids `AMBIGUOUS`. -/
theorem build_charset_exclude_ambiguous (a b c d : Bool) (parts : List (List Char))
    (h : build_charset a b c d true = .ok parts) :
    ∀ p ∈ parts, ∀ ch ∈ p, ch ∉ AMBIGUOUS := by
  intro p hp ch hch
  rw [build_charset_ok_shape a b c d true parts h] at hp
  have hp2 : p ∈ excluded_parts a b c d true := List.mem_of_mem_filter hp
  simp only [excluded_parts, if_pos, List.mem_map] at hp2
  obtain ⟨s, _, rfl⟩ := hp2
  have := List.of_mem_filter hch
  simpa using this

/-- Every insufficient-length draw lands in the pool it draws from. -/
theorem case_a_draws_mem (pool : List Char) (n : Nat) (r : Nat → Nat) (hp : pool ≠ []) :
    ∀ ch ∈ case_a_draws pool n r, ch ∈ pool := by
  intro ch hch
  simp only [case_a_draws, List.mem_map, List.mem_range] at hch
  obtain ⟨k, _, rfl⟩ := hch
  exact choiceD_mem pool (r k) hp

/-- Every filler draw lands in the pool it draws from. -/
theorem case_b_filler_mem (pool : List Char) (m n : Nat) (r : Nat → Nat) (hp : pool ≠ []) :
    ∀ ch ∈ case_b_filler pool m n r, ch ∈ pool := by
  intro ch hch
  simp only [case_b_filler, List.mem_map, List.mem_range] at hch
  obtain ⟨k, _, rfl⟩ := hch
  exact choiceD_mem pool (r (m + k)) hp

/-- Every coverage draw lands in the flattened union of the pools. -/
theorem coverage_draws_mem_flatten (parts : List (List Char)) (r : Nat → Nat)
    (hne : ∀ p ∈ parts, p ≠ []) :
    ∀ ch ∈ coverage_draws parts r, ch ∈ parts.flatten := by
  intro ch hch
  simp only [coverage_draws, List.mem_map, List.mem_range] at hch
  obtain ⟨k, hk, rfl⟩ := hch
  rw [List.getD_eq_getElem parts [] hk]
  have hmem : parts[k] ∈ parts := List.getElem_mem hk
  exact List.mem_flatten.mpr ⟨parts[k], hmem, choiceD_mem _ _ (hne _ hmem)⟩

/-- For every pool, some coverage draw lands in that pool. -/
theorem coverage_draws_covers (parts : List (List Char)) (r : Nat → Nat)
    (hne : ∀ p ∈ parts, p ≠ []) :
    ∀ p ∈ parts, ∃ ch ∈ coverage_draws parts r, ch ∈ p := by
  intro p hp
  obtain ⟨k, hk, hpk⟩ := List.getElem_of_mem hp
  refine ⟨choiceD p (r k), ?_, choiceD_mem p (r k) (hne p hp)⟩
  simp only [coverage_draws, List.mem_map, List.mem_range]
  exact ⟨k, hk, by rw [List.getD_eq_getElem parts [] hk, hpk]⟩

/-- Inversion of a successful `generate_password` call: the length was
positive, the charset build succeeded, and the output is either the
no-coverage draws (when the length is short of the pool count) or the
shuffled coverage-plus-filler draws. -/
theorem generate_password_ok_inv (len : Int) (a b c d e : Bool) (r : Nat → Nat) (pw : List Char)
    (h : generate_password len a b c d e r = .ok pw) :
    0 < len ∧ ∃ parts, build_charset a b c d e = .ok parts ∧
      ((len.toNat < parts.length ∧ pw = case_a_draws parts.flatten len.toNat r) ∨
       (parts.length ≤ len.toNat ∧
        pw = fisherYates
          (coverage_draws parts r ++ case_b_filler parts.flatten parts.length len.toNat r)
          (fun i => r (len.toNat + i)))) := by
  unfold generate_password at h
  split at h
  · exact absurd h (by simp)
  · rename_i hpos
    refine ⟨by omega, ?_⟩
    split at h
    · exact absurd h (by simp)
    · rename_i parts hparts
      refine ⟨parts, hparts, ?_⟩
      split at h
      · rename_i hlt
        injection h with h
        exact Or.inl ⟨hlt, h.symm⟩
      · rename_i hge
        injection h with h
        exact Or.inr ⟨by omega, h.symm⟩

/-- Every character of a successful output lies in the flattened union of the
built pools. -/
theorem generate_ok_mem_flatten (len : Int) (a b c d e : Bool) (r : Nat → Nat)
    (parts : List (List Char)) (pw : List Char)
    (hb : build_charset a b c d e = .ok parts)
    (h : generate_password len a b c d e r = .ok pw) :
    ∀ ch ∈ pw, ch ∈ parts.flatten := by
  obtain ⟨_, parts', hb', hcase⟩ := generate_password_ok_inv len a b c d e r pw h
  rw [hb] at hb'
  injection hb' with hb'
  subst hb'
  have hflat := build_charset_flatten_ne_nil a b c d e parts hb
  have hne := build_charset_pools_ne_nil a b c d e parts hb
  rcases hcase with ⟨_, rfl⟩ | ⟨_, rfl⟩
  · exact case_a_draws_mem _ _ _ hflat
  · intro ch hch
    have hperm := fisherYates_perm
      (coverage_draws parts r ++ case_b_filler parts.flatten parts.length len.toNat r)
      (fun i => r (len.toNat + i))
    have hch2 := hperm.mem_iff.mp hch
    rcases List.mem_append.mp hch2 with hc | hf
    · exact coverage_draws_mem_flatten parts r hne ch hc
    · exact case_b_filler_mem _ _ _ _ hflat ch hf

/-! ### The claims -/

/-- C1: whenever at least one category is enabled, `build_charset` succeeds
with a non-empty pool list and the requested length is at least the number of
non-empty pools, the generated password contains at least one character from
each surviving pool (after ambiguous exclusion). -/
theorem C1_coverage (len : Int) (a b c d e : Bool) (r : Nat → Nat)
    (parts : List (List Char)) (pw : List Char)
    (hb : build_charset a b c d e = .ok parts)
    (h : generate_password len a b c d e r = .ok pw)
    (hlen : (parts.length : Int) ≤ len) :
    ∀ p ∈ parts, ∃ ch ∈ pw, ch ∈ p := by
  obtain ⟨hpos, parts', hb', hcase⟩ := generate_password_ok_inv len a b c d e r pw h
  rw [hb] at hb'
  injection hb' with hb'
  subst hb'
  have hne := build_charset_pools_ne_nil a b c d e parts hb
  rcases hcase with ⟨hlt, rfl⟩ | ⟨hge, rfl⟩
  · omega
  · intro p hp
    obtain ⟨ch, hcov, hchp⟩ := coverage_draws_covers parts r hne p hp
    refine ⟨ch, ?_, hchp⟩
    have hperm := fisherYates_perm
      (coverage_draws parts r ++ case_b_filler parts.flatten parts.length len.toNat r)
      (fun i => r (len.toNat + i))
    exact hperm.mem_iff.mpr (List.mem_append_left _ hcov)

/-- Witness for C1 at length 4 with all categories on: the output `A0!a`
meets each of the four pools. -/
theorem C1_coverage_witness :
    build_charset true true true true false =
      .ok [ascii_lowercase, ascii_uppercase, digits, symbols] ∧
    generate_password 4 true true true true false (fun _ => 0) = .ok ['A', '0', '!', 'a'] ∧
    (([ascii_lowercase, ascii_uppercase, digits, symbols].length : Int) ≤ 4) ∧
    ∀ p ∈ [ascii_lowercase, ascii_uppercase, digits, symbols],
      ∃ ch ∈ ['A', '0', '!', 'a'], ch ∈ p :=
  ⟨by decide, by decide, by decide,
    C1_coverage 4 true true true true false (fun _ => 0)
      [ascii_lowercase, ascii_uppercase, digits, symbols] ['A', '0', '!', 'a']
      (by decide) (by decide) (by decide)⟩

/-- C2: every character of a successful output belongs to the union of the
selected pools after ambiguous exclusion, in both the short-length branch and
the coverage branch. -/
theorem C2_alphabet_containment (len : Int) (a b c d e : Bool) (r : Nat → Nat)
    (parts : List (List Char)) (pw : List Char)
    (hb : build_charset a b c d e = .ok parts)
    (h : generate_password len a b c d e r = .ok pw) :
    ∀ ch ∈ pw, ch ∈ parts.flatten :=
  generate_ok_mem_flatten len a b c d e r parts pw hb h

/-- Witness for C2 at length 4 with all categories on. -/
theorem C2_alphabet_containment_witness :
    build_charset true true true true false =
      .ok [ascii_lowercase, ascii_uppercase, digits, symbols] ∧
    generate_password 4 true true true true false (fun _ => 0) = .ok ['A', '0', '!', 'a'] ∧
    ∀ ch ∈ ['A', '0', '!', 'a'],
      ch ∈ [ascii_lowercase, ascii_uppercase, digits, symbols].flatten :=
  ⟨by decide, by decide,
    C2_alphabet_containment 4 true true true true false (fun _ => 0)
      [ascii_lowercase, ascii_uppercase, digits, symbols] ['A', '0', '!', 'a']
      (by decide) (by decide)⟩

/-- C3: a successful output has exactly the requested length, in both
branches. -/
theorem C3_length_exact (len : Int) (a b c d e : Bool) (r : Nat → Nat) (pw : List Char)
    (h : generate_password len a b c d e r = .ok pw) :
    (pw.length : Int) = len := by
  obtain ⟨hpos, parts, hb, hcase⟩ := generate_password_ok_inv len a b c d e r pw h
  rcases hcase with ⟨hlt, rfl⟩ | ⟨hge, rfl⟩
  · simp only [case_a_draws, List.length_map, List.length_range]
    omega
  · have hperm := fisherYates_perm
      (coverage_draws parts r ++ case_b_filler parts.flatten parts.length len.toNat r)
      (fun i => r (len.toNat + i))
    rw [hperm.length_eq]
    simp only [List.length_append, coverage_draws, case_b_filler,
      List.length_map, List.length_range]
    omega

/-- Witness for C3 at length 4 with all categories on. -/
theorem C3_length_exact_witness :
    generate_password 4 true true true true false (fun _ => 0) = .ok ['A', '0', '!', 'a'] ∧
    ((['A', '0', '!', 'a'] : List Char).length : Int) = 4 :=
  ⟨by decide,
    C3_length_exact 4 true true true true false (fun _ => 0) ['A', '0', '!', 'a'] (by decide)⟩

/-- C4: with `exclude_ambiguous = true`, no character of a successful output
belongs to the fixed `AMBIGUOUS` set. -/
theorem C4_no_ambiguous (len : Int) (a b c d : Bool) (r : Nat → Nat) (pw : List Char)
    (h : generate_password len a b c d true r = .ok pw) :
    ∀ ch ∈ pw, ch ∉ AMBIGUOUS := by
  obtain ⟨hpos, parts, hb, _⟩ := generate_password_ok_inv len a b c d true r pw h
  intro ch hch
  have hflat := generate_ok_mem_flatten len a b c d true r parts pw hb h ch hch
  obtain ⟨p, hp, hchp⟩ := List.mem_flatten.mp hflat
  exact build_charset_exclude_ambiguous a b c d parts hb p hp ch hchp

/-- Witness for C4 at length 4 with all categories on and exclusion on: the
output `A2!a` avoids every ambiguous character. -/
theorem C4_no_ambiguous_witness :
    generate_password 4 true true true true true (fun _ => 0) = .ok ['A', '2', '!', 'a'] ∧
    ∀ ch ∈ ['A', '2', '!', 'a'], ch ∉ AMBIGUOUS :=
  ⟨by decide,
    C4_no_ambiguous 4 true true true true (fun _ => 0) ['A', '2', '!', 'a'] (by decide)⟩

/-- C5: with all four category flags false and a positive length,
`generate_password` fails with `NoCategorySelected` and produces no output. -/
theorem C5_no_category (len : Int) (hpos : 0 < len) (e : Bool) (r : Nat → Nat) :
    generate_password len false false false false e r = .error .NoCategorySelected := by
  unfold generate_password
  rw [if_neg (by omega)]
  have hb : build_charset false false false false e = .error .NoCategorySelected := by
    cases e <;> rfl
  rw [hb]

/-- Witness for C5 at the spec's example `generate_password(10, false, false,
false, false)`. -/
theorem C5_no_category_witness :
    (0 : Int) < 10 ∧
    generate_password 10 false false false false false (fun _ => 0) =
      .error .NoCategorySelected :=
  ⟨by decide, C5_no_category 10 (by decide) false (fun _ => 0)⟩

/-- The charset builder can only fail with the two category errors, never
with `InvalidLength`. -/
theorem build_charset_ne_invalid (a b c d e : Bool) :
    build_charset a b c d e ≠ .error .InvalidLength := by
  unfold build_charset
  split
  · simp
  · split <;> simp

/-- C6: a call fails with `InvalidLength` exactly when the requested length
is not positive; the check is `length <= 0` and no other path produces this
error. -/
theorem C6_invalid_length_iff (len : Int) (a b c d e : Bool) (r : Nat → Nat) :
    generate_password len a b c d e r = .error .InvalidLength ↔ len ≤ 0 := by
  constructor
  · intro h
    by_contra hpos
    unfold generate_password at h
    rw [if_neg hpos] at h
    cases hb : build_charset a b c d e with
    | error err =>
      rw [hb] at h
      have herr : err = .InvalidLength := by injection h
      rw [herr] at hb
      exact build_charset_ne_invalid a b c d e hb
    | ok parts =>
      rw [hb] at h
      dsimp only at h
      split at h <;> simp at h
  · intro h
    unfold generate_password
    rw [if_pos h]

/-- C8: with valid pools and `0 < length < count(pools)` the call succeeds:
the output is exactly the drawn sequence (no coverage step, no shuffle), has
the requested length, and stays inside the flattened pool union. -/
theorem C8_insufficient_length (len : Int) (a b c d e : Bool) (r : Nat → Nat)
    (parts : List (List Char))
    (hb : build_charset a b c d e = .ok parts)
    (h0 : 0 < len) (hlt : len < (parts.length : Int)) :
    generate_password len a b c d e r = .ok (case_a_draws parts.flatten len.toNat r) ∧
    ((case_a_draws parts.flatten len.toNat r).length : Int) = len ∧
    ∀ ch ∈ case_a_draws parts.flatten len.toNat r, ch ∈ parts.flatten := by
  refine ⟨?_, ?_, case_a_draws_mem _ _ _ (build_charset_flatten_ne_nil a b c d e parts hb)⟩
  · unfold generate_password
    rw [if_neg (show ¬ len ≤ 0 by omega), hb]
    dsimp only
    rw [if_pos (show len.toNat < parts.length by omega)]
  · simp only [case_a_draws, List.length_map, List.length_range]
    omega

/-- Witness for C8 at the spec's example: length 3 with all four pools; the
draws land unshuffled in the output `aaa`. -/
theorem C8_insufficient_length_witness :
    build_charset true true true true false =
      .ok [ascii_lowercase, ascii_uppercase, digits, symbols] ∧
    (0 : Int) < 3 ∧
    (3 : Int) < ([ascii_lowercase, ascii_uppercase, digits, symbols].length : Int) ∧
    (generate_password 3 true true true true false (fun _ => 0) =
      .ok (case_a_draws [ascii_lowercase, ascii_uppercase, digits, symbols].flatten
        (3 : Int).toNat (fun _ => 0)) ∧
    ((case_a_draws [ascii_lowercase, ascii_uppercase, digits, symbols].flatten
        (3 : Int).toNat (fun _ => 0)).length : Int) = 3 ∧
    ∀ ch ∈ case_a_draws [ascii_lowercase, ascii_uppercase, digits, symbols].flatten
        (3 : Int).toNat (fun _ => 0),
      ch ∈ [ascii_lowercase, ascii_uppercase, digits, symbols].flatten) :=
  ⟨by decide, by decide, by decide,
    C8_insufficient_length 3 true true true true false (fun _ => 0)
      [ascii_lowercase, ascii_uppercase, digits, symbols] (by decide) (by decide) (by decide)⟩

/-- C9: on every input the code's `build_charset` coincides with the spec's
Charset Builder: surviving pools in declaration order, disabled and emptied
categories skipped, and under exclusion each pool is the reference alphabet
with ambiguous characters removed in order. -/
theorem C9_builder_refines_spec (a b c d e : Bool) :
    build_charset a b c d e = build_charset_spec a b c d e := by
  cases a <;> cases b <;> cases c <;> cases d <;> cases e <;> rfl

/-- C10: the length check runs before the charset build, so a non-positive
length yields `InvalidLength` even when all four category flags are false. -/
theorem C10_length_check_first (len : Int) (e : Bool) (r : Nat → Nat) (hlen : len ≤ 0) :
    generate_password len false false false false e r = .error .InvalidLength := by
  unfold generate_password
  rw [if_pos hlen]

/-- Witness for C10 at the concrete call `generate_password(0, false, false,
false, false)`. -/
theorem C10_length_check_first_witness :
    (0 : Int) ≤ 0 ∧
    generate_password 0 false false false false false (fun _ => 0) =
      .error .InvalidLength :=
  ⟨by decide, C10_length_check_first 0 false (fun _ => 0) (by decide)⟩

/-- C7 fails on the code as stated: its existence part asks for a request
selecting only a category whose entire alphabet lies in the ambiguous set,
but none of the four fixed alphabets lies inside `AMBIGUOUS`, and each of the
four single-category requests with exclusion on succeeds rather than failing
with `AllPoolsEmptied`. -/
theorem C7_counterexample :
    build_charset true false false false true ≠ .error .AllPoolsEmptied ∧
    build_charset false true false false true ≠ .error .AllPoolsEmptied ∧
    build_charset false false true false true ≠ .error .AllPoolsEmptied ∧
    build_charset false false false true true ≠ .error .AllPoolsEmptied ∧
    ¬ ascii_lowercase.all (fun ch => AMBIGUOUS.contains ch) = true ∧
    ¬ ascii_uppercase.all (fun ch => AMBIGUOUS.contains ch) = true ∧
    ¬ digits.all (fun ch => AMBIGUOUS.contains ch) = true ∧
    ¬ symbols.all (fun ch => AMBIGUOUS.contains ch) = true := by
  decide

/-- C7 amended: `build_charset` does contain a distinct `AllPoolsEmptied`
check after exclusion drops emptied pools, but with the fixed alphabets and
the fixed ambiguous set no input can trigger it: `build_charset` never
returns `AllPoolsEmptied`. -/
theorem C7_all_pools_emptied_unreachable (a b c d e : Bool) :
    build_charset a b c d e ≠ .error .AllPoolsEmptied := by
  cases a <;> cases b <;> cases c <;> cases d <;> cases e <;> decide
